import Mathlib

set_option maxRecDepth 8192

/-!
# A verification development for the sajs streaming JSON lexer and writer

This file gives a shallow embedding of the core of the sajs library
(src/lexer.c, src/writer.c) and of the driver loop of tools/sajs-pipe.c,
and proves properties of the embedded code.

Conventions of the embedding:
* C machine integers (`uint32_t`, `unsigned`) are modelled as `Nat` with an
  explicit `% 2 ^ 32` wherever the C arithmetic can wrap.
* The lexer's frame stack (one `uint8_t` state per frame, indices
  `0 .. top`) is modelled as a `List State` whose head is the frame at
  index `top`; the list length is therefore `top + 1`.
* The 4-byte event buffer together with its `num_bytes` counter is
  modelled as the list of bytes last written to it plus the counter.
* Input is an `Int` as with `fgetc`: `-1` (or any negative value) is EOF,
  non-negative values are cast to a byte with `% 256` exactly where the C
  code applies `(uint8_t)` casts.
-/

namespace Sajs

/-- Status codes, mirroring `SajsStatus` in sajs.h (in declaration order,
so `statusCode` below recovers the C enum value). -/
inductive Status where
  | success
  | failure
  | retry
  | noData
  | overflow
  | underflow
  | badWrite
  | expectedColon
  | expectedComma
  | expectedContinuation
  | expectedDecimal
  | expectedDigit
  | expectedExponent
  | expectedHex
  | expectedLiteral
  | expectedPrintable
  | expectedQuote
  | expectedStringEscape
  | expectedUtf16Hi
  | expectedUtf16Lo
  | expectedUtf8
  | expectedValue
  deriving DecidableEq, Repr

/-- Numeric value of a status, as in the C enum `SajsStatus`. -/
def statusCode : Status → Nat
  | .success => 0
  | .failure => 1
  | .retry => 2
  | .noData => 3
  | .overflow => 4
  | .underflow => 5
  | .badWrite => 6
  | .expectedColon => 7
  | .expectedComma => 8
  | .expectedContinuation => 9
  | .expectedDecimal => 10
  | .expectedDigit => 11
  | .expectedExponent => 12
  | .expectedHex => 13
  | .expectedLiteral => 14
  | .expectedPrintable => 15
  | .expectedQuote => 16
  | .expectedStringEscape => 17
  | .expectedUtf16Hi => 18
  | .expectedUtf16Lo => 19
  | .expectedUtf8 => 20
  | .expectedValue => 21

/-- The `ExpectedX` diagnostic family: every status from
`SAJS_EXPECTED_COLON` up in the C enum. -/
def isExpected : Status → Bool
  | .expectedColon | .expectedComma | .expectedContinuation
  | .expectedDecimal | .expectedDigit | .expectedExponent | .expectedHex
  | .expectedLiteral | .expectedPrintable | .expectedQuote
  | .expectedStringEscape | .expectedUtf16Hi | .expectedUtf16Lo
  | .expectedUtf8 | .expectedValue => true
  | _ => false

/-- Kind of a JSON value (`SajsValueKind`).  `noKind` models the
`(SajsValueKind)0U` cast the C code uses for "no kind". -/
inductive ValueKind where
  | noKind
  | object
  | array
  | string
  | number
  | literal
  deriving DecidableEq, Repr

/-- The kind of event produced by a read (the `type` field of the C
`SajsEvent` struct; the C enum is also named `SajsEvent`). -/
inductive EventType where
  | nothing
  | start
  | endE
  | doubleEnd
  | bytes
  deriving DecidableEq, Repr

/-! Event flag bits (`SajsFlag`). -/

/-- `SAJS_IS_MEMBER_NAME` -/
def isMemberNameFlag : Nat := 1

/-- `SAJS_IS_MEMBER_VALUE` -/
def isMemberValueFlag : Nat := 2

/-- `SAJS_IS_ELEMENT` -/
def isElementFlag : Nat := 4

/-- `SAJS_IS_FIRST` -/
def isFirstFlag : Nat := 8

/-- `SAJS_HAS_BYTES` -/
def hasBytesFlag : Nat := 16

/-- A lexer state (`SajsState` in lexer.c), one per stack frame. -/
inductive State where
  | start
  | elemFirst
  | elemSep
  | elemNext
  | memNameFirst
  | memNameSep
  | memValueStart
  | memSep
  | memNext
  | string
  | stringEsc
  | stringEscHex
  | stringEscLo
  | numIntStart
  | numIntCont
  | numIntEnd
  | numFracStart
  | numFracCont
  | numExpStart
  | numExpIntStart
  | numExpIntCont
  | falseLit
  | nullLit
  | trueLit
  deriving DecidableEq, Repr

/-- The numeric value of a state in the C enum `SajsState`. -/
def stateIdx : State → Nat
  | .start => 0
  | .elemFirst => 1
  | .elemSep => 2
  | .elemNext => 3
  | .memNameFirst => 4
  | .memNameSep => 5
  | .memValueStart => 6
  | .memSep => 7
  | .memNext => 8
  | .string => 9
  | .stringEsc => 10
  | .stringEscHex => 11
  | .stringEscLo => 12
  | .numIntStart => 13
  | .numIntCont => 14
  | .numIntEnd => 15
  | .numFracStart => 16
  | .numFracCont => 17
  | .numExpStart => 18
  | .numExpIntStart => 19
  | .numExpIntCont => 20
  | .falseLit => 21
  | .nullLit => 22
  | .trueLit => 23

/-- The result record returned per input byte (the C struct `SajsEvent`
in lexer.c / `SajsResult` in sajs.h): status, event type, value kind and
flag bits. -/
structure Event where
  status : Status
  type : EventType
  kind : ValueKind
  flags : Nat
  deriving DecidableEq, Repr

/-- Lexer state (`struct SajsLexerImpl` plus the frame stack that follows
it in memory).  `stack.head` is the frame at index `top`; the C fields
`max_depth`, `value`, `length`, `flags`, `num_bytes`, `bytes` map to the
like-named fields here. -/
structure Lexer where
  maxDepth : Nat
  stack : List State
  value : Nat
  length : Nat
  flags : Nat
  numBytes : Nat
  bytes : List Nat
  deriving DecidableEq, Repr

/-- A view of the last-read bytes (`SajsStringView`): the `data` pointer is
modelled by the buffer contents, `length` is the view length in bytes. -/
structure StringView where
  data : List Nat
  length : Nat
  deriving DecidableEq, Repr

/-! ## Character classification and text encoding utilities -/

/-- `is_digit` -/
def is_digit (c : Nat) : Bool := 48 ≤ c && c ≤ 57

/-- `is_xdigit` -/
def is_xdigit (c : Nat) : Bool :=
  is_digit c || (65 ≤ c && c ≤ 70) || (97 ≤ c && c ≤ 102)

/-- `is_space`: tab, LF, CR, or space. -/
def is_space (c : Nat) : Bool := c = 9 || c = 10 || c = 13 || c = 32

/-- `hex_nibble`: 0-15 for a hex digit, otherwise `UINT8_MAX`. -/
def hex_nibble (c : Nat) : Nat :=
  if is_digit c then c - 48
  else if 65 ≤ c && c ≤ 70 then 10 + c - 65
  else if 97 ≤ c && c ≤ 102 then 10 + c - 97
  else 255

/-- `utf8_num_bytes_for_codepoint` -/
def utf8_num_bytes_for_codepoint (code : Nat) : Nat :=
  if code < 0x80 then 1
  else if code < 0x800 then 2
  else if code < 0x10000 then 3
  else if code < 0x110000 then 4
  else 0

/-- `utf8_from_codepoint`, with the C write-backwards loop unrolled per
size; returns the bytes written (empty for size 0). -/
def utf8_from_codepoint (code : Nat) : List Nat :=
  match utf8_num_bytes_for_codepoint code with
  | 1 => [code]
  | 2 => [0xC0 ||| (code >>> 6), 0x80 ||| (code &&& 0x3F)]
  | 3 => [0xE0 ||| (code >>> 12), 0x80 ||| ((code >>> 6) &&& 0x3F),
          0x80 ||| (code &&& 0x3F)]
  | 4 => [0xF0 ||| (code >>> 18), 0x80 ||| ((code >>> 12) &&& 0x3F),
          0x80 ||| ((code >>> 6) &&& 0x3F), 0x80 ||| (code &&& 0x3F)]
  | _ => []

/-- `utf16_surrogates_codepoint`: `((high - 0xD800U) * 0x400U) +
(low - 0xDC00U) + 0x10000U` in `unsigned` arithmetic (mod `2^32`). -/
def utf16_surrogates_codepoint (high low : Nat) : Nat :=
  ((high + (2 ^ 32 - 0xD800)) * 0x400 + (low + (2 ^ 32 - 0xDC00)) + 0x10000)
    % 2 ^ 32

/-! ## Lexer state helpers -/

/-- The state held in the top frame (`*top_frame(lexer)`). -/
def topState (l : Lexer) : State := l.stack.headD .start

/-- Overwrite the top frame (`*frame = state` before any push/pop). -/
def setTop (l : Lexer) (s : State) : Lexer :=
  { l with stack := s :: l.stack.tail }

/-- Overwrite the frame directly below the top.  This models a write
through a `frame` pointer captured before a successful `push` (the
pointed-to slot is then one below the new top). -/
def setBelow (l : Lexer) (s : State) : Lexer :=
  { l with stack :=
      match l.stack with
      | a :: _ :: r => a :: s :: r
      | st => st }

/-- `sajs_lexer_init`, parameterized directly by the stack capacity
`max_depth` (in the C code this is `(mem_size - sizeof(SajsLexer))` frames;
the byte buffer and `num_bytes` are left unwritten by the C init and are
modelled as empty/zero here, as they are always written before use). -/
def sajs_lexer_init (maxDepth : Nat) : Lexer :=
  { maxDepth := maxDepth
    stack := [.start]
    value := 0
    length := 0
    flags := 0
    numBytes := 0
    bytes := [] }

/-! ## Events -/

/-- `bytes_event` -/
def bytes_event : Event :=
  { status := .success, type := .bytes, kind := .noKind, flags := hasBytesFlag }

/-- `do_nothing` -/
def do_nothing (st : Status) : Event :=
  { status := st, type := .nothing, kind := .noKind, flags := 0 }

/-- `do_byte`: store one byte in the buffer and return a bytes event. -/
def do_byte (l : Lexer) (c : Nat) : Event × Lexer :=
  (bytes_event, { l with bytes := [c], numBytes := 1 })

/-- `do_codepoint`: encode a codepoint as UTF-8 into the buffer. -/
def do_codepoint (l : Lexer) (codepoint : Nat) : Event × Lexer :=
  let bs := utf8_from_codepoint codepoint
  if bs.length ≠ 0 then
    (bytes_event, { l with bytes := bs, numBytes := bs.length })
  else
    (do_nothing .expectedUtf8, { l with numBytes := 0 })

/-- `push`: grow the stack by one frame holding `state`, install `flags`
and the optional first byte, and return a start event.  The C overflow
check `top + 1U >= max_depth` is `stack.length ≥ maxDepth` here. -/
def push (l : Lexer) (kind : ValueKind) (flags : Nat) (state : State)
    (first : Nat) : Event × Lexer :=
  if l.stack.length ≥ l.maxDepth then (do_nothing .overflow, l)
  else
    ({ status := .success, type := .start, kind := kind,
       flags := flags ||| (if first ≠ 0 then hasBytesFlag else 0) },
     { l with
        stack := state :: l.stack
        flags := flags
        length := if first ≠ 0 then 1 else 0
        numBytes := if first ≠ 0 then 1 else 0
        bytes := if first ≠ 0 then [first] else [] })

/-- `pop`: shrink the stack by one frame (status `underflow` and no state
change when `top` is already 0), store the optional trailing byte, clear
length/flags, and return an end event.  Note that the C code sets
`num_bytes` to 0 even when a trailing byte was stored. -/
def pop (l : Lexer) (kind : ValueKind) (successStatus : Status)
    (last : Nat) : Event × Lexer :=
  ({ status := if 2 ≤ l.stack.length then successStatus else .underflow,
     type := .endE, kind := kind,
     flags := if last ≠ 0 then hasBytesFlag else 0 },
   { l with
      stack := if 2 ≤ l.stack.length then l.stack.tail else l.stack
      bytes := [last]
      numBytes := 0
      length := 0
      flags := 0 })

/-! ## State transitions -/

/-- `do_reset`: reset the top frame and the pending flags. -/
def do_reset (l : Lexer) (state : State) (flags : Nat) : Event × Lexer :=
  (do_nothing .success, { setTop l state with flags := flags })

/-- `do_change`: change the top frame to a new state. -/
def do_change (l : Lexer) (state : State) : Event × Lexer :=
  (do_nothing .success, setTop l state)

/-- `do_byte_change`: change the top frame and produce a byte. -/
def do_byte_change (l : Lexer) (state : State) (c : Nat) : Event × Lexer :=
  do_byte (setTop l state) c

/-- `do_reset_if` applied to the outcome of a value handler: on success
the frame the C code captured before the push (now one below the top) is
reset and the pending flags installed. -/
def reset_below_if (state : State) (flags : Nat) (r : Event × Lexer) :
    Event × Lexer :=
  if r.1.status = .success then
    (r.1, { setBelow r.2 state with flags := flags })
  else r

/-- `do_change_if` applied to the outcome of a value handler: on success
the frame captured before the push (now one below the top) is changed. -/
def change_below_if (state : State) (r : Event × Lexer) : Event × Lexer :=
  if r.1.status = .success then (r.1, setBelow r.2 state) else r

/-! ## Character handlers -/

/-- `eat_value` (lexer.c): dispatch the first byte of a value. -/
def eat_value (l : Lexer) (flags : Nat) (c : Nat) : Event × Lexer :=
  if c = 34 then push l .string flags .string 0            -- '"'
  else if c = 45 then push l .number flags .numIntStart c  -- '-'
  else if c = 48 then push l .number flags .numIntEnd c    -- '0'
  else if c = 91 then push l .array flags .elemFirst 0     -- '['
  else if c = 123 then push l .object flags .memNameFirst 0 -- '{'
  else if c = 102 then push l .literal flags .falseLit c   -- 'f'
  else if c = 110 then push l .literal flags .nullLit c    -- 'n'
  else if c = 116 then push l .literal flags .trueLit c    -- 't'
  else if is_digit c then push l .number flags .numIntCont c
  else (do_nothing .expectedValue, l)

/-- `eat_start` -/
def eat_start (l : Lexer) (c : Nat) : Event × Lexer := eat_value l 0 c

/-- `eat_elem_first` -/
def eat_elem_first (l : Lexer) (c : Nat) : Event × Lexer :=
  if c = 93 then pop l .array .success 0                   -- ']'
  else
    reset_below_if .elemSep isElementFlag
      (eat_value l (isElementFlag ||| isFirstFlag) c)

/-- `eat_elem_sep` -/
def eat_elem_sep (l : Lexer) (c : Nat) : Event × Lexer :=
  if c = 93 then pop l .array .success 0                   -- ']'
  else if c = 44 then do_reset l .elemNext isElementFlag   -- ','
  else (do_nothing .expectedComma, l)

/-- `eat_elem_next` -/
def eat_elem_next (l : Lexer) (c : Nat) : Event × Lexer :=
  change_below_if .elemSep (eat_value l isElementFlag c)

/-- `eat_mem_name_first` -/
def eat_mem_name_first (l : Lexer) (c : Nat) : Event × Lexer :=
  if c = 125 then pop l .object .success 0                 -- '}'
  else if c ≠ 34 then (do_nothing .expectedQuote, l)
  else
    change_below_if .memNameSep
      (push l .string (isFirstFlag ||| isMemberNameFlag) .string 0)

/-- `eat_mem_name_sep` -/
def eat_mem_name_sep (l : Lexer) (c : Nat) : Event × Lexer :=
  if c = 58 then do_reset l .memValueStart isMemberValueFlag -- ':'
  else (do_nothing .expectedColon, l)

/-- `eat_mem_value_start` -/
def eat_mem_value_start (l : Lexer) (c : Nat) : Event × Lexer :=
  change_below_if .memSep (eat_value l isMemberValueFlag c)

/-- `eat_mem_sep` -/
def eat_mem_sep (l : Lexer) (c : Nat) : Event × Lexer :=
  if c = 44 then do_reset l .memNext 0                     -- ','
  else if c = 125 then pop l .object .success 0            -- '}'
  else (do_nothing .expectedComma, l)

/-- `eat_mem_next` -/
def eat_mem_next (l : Lexer) (c : Nat) : Event × Lexer :=
  if c = 34 then
    change_below_if .memNameSep
      (push l .string isMemberNameFlag .string 0)
  else (do_nothing .expectedQuote, l)

/-- `eat_string` -/
def eat_string (l : Lexer) (c : Nat) : Event × Lexer :=
  if c = 34 then pop l .string .success 0                  -- '"'
  else if c = 92 then do_change l .stringEsc               -- backslash
  else if c < 32 then pop l .string .expectedPrintable 0
  else do_byte l c

/-- `eat_string_esc` -/
def eat_string_esc (l : Lexer) (c : Nat) : Event × Lexer :=
  if c = 34 ∨ c = 47 ∨ c = 92 then do_byte_change l .string c
  else if c = 98 then do_byte_change l .string 8           -- 'b'
  else if c = 102 then do_byte_change l .string 12         -- 'f'
  else if c = 110 then do_byte_change l .string 10         -- 'n'
  else if c = 114 then do_byte_change l .string 13         -- 'r'
  else if c = 116 then do_byte_change l .string 9          -- 't'
  else if c = 117 then do_change l .stringEscHex           -- 'u'
  else (do_nothing .expectedStringEscape, l)

/-- `eat_string_esc_hex` -/
def eat_string_esc_hex (l : Lexer) (c : Nat) : Event × Lexer :=
  if ¬ is_xdigit c then (do_nothing .expectedHex, l)
  else
    let v := (if l.length ≠ 0 then l.value * 16 % 2 ^ 32 else 0) |||
      hex_nibble c
    let l1 := { l with value := v, length := (l.length + 1) % 2 ^ 32 }
    if l1.length < 4 then (do_nothing .success, l1)
    else if 0xDC00 ≤ v ∧ v ≤ 0xDFFF then (do_nothing .expectedUtf16Hi, l1)
    else if 0xD800 ≤ v ∧ v ≤ 0xDBFF then do_change l1 .stringEscLo
    else
      let r := do_codepoint l1 v
      (r.1, setTop { r.2 with length := 0 } .string)

/-- `eat_string_esc_lo` -/
def eat_string_esc_lo (l : Lexer) (c : Nat) : Event × Lexer :=
  if (l.length = 4 ∧ c = 92) ∨ (l.length = 5 ∧ c = 117) then -- '\\', 'u'
    (do_nothing .success, { l with length := (l.length + 1) % 2 ^ 32 })
  else if ¬ is_xdigit c then (do_nothing .expectedHex, l)
  else
    let v := (l.value * 16 % 2 ^ 32) ||| hex_nibble c
    let l1 := { l with value := v, length := (l.length + 1) % 2 ^ 32 }
    if l1.length < 10 then (do_nothing .success, l1)
    else
      let hi := v / 2 ^ 16 % 2 ^ 16
      let lo := v % 2 ^ 16
      let codepoint := utf16_surrogates_codepoint hi lo
      if lo < 0xDC00 ∨ lo > 0xDFFF then (do_nothing .expectedUtf16Lo, l1)
      else
        let r := do_codepoint l1 codepoint
        (r.1, setTop { r.2 with length := 0 } .string)

/-- `is_number_end`: whitespace, comma, or a closing bracket/brace. -/
def is_number_end (c : Nat) : Bool :=
  is_space c || c = 44 || c = 93 || c = 125

/-- `eat_num_int_start` -/
def eat_num_int_start (l : Lexer) (c : Nat) : Event × Lexer :=
  if c = 48 then do_byte_change l .numIntEnd c
  else if is_digit c then do_byte_change l .numIntCont c
  else (do_nothing .expectedDigit, l)

/-- `eat_num_int_end` -/
def eat_num_int_end (l : Lexer) (c : Nat) : Event × Lexer :=
  if is_number_end c then pop l .number .retry 0
  else if c = 46 then do_byte_change l .numFracStart c     -- '.'
  else if c = 69 ∨ c = 101 then do_byte_change l .numExpStart c -- 'E' 'e'
  else (do_nothing .expectedDecimal, l)

/-- `eat_num_int_cont` -/
def eat_num_int_cont (l : Lexer) (c : Nat) : Event × Lexer :=
  if is_digit c then do_byte l c else eat_num_int_end l c

/-- `eat_num_frac_start` -/
def eat_num_frac_start (l : Lexer) (c : Nat) : Event × Lexer :=
  if is_digit c then do_byte_change l .numFracCont c
  else (do_nothing .expectedDigit, l)

/-- `eat_num_frac_cont`.  Note: only a lowercase `e` (101) starts the
exponent here. -/
def eat_num_frac_cont (l : Lexer) (c : Nat) : Event × Lexer :=
  if is_digit c then do_byte l c
  else if c = 101 then do_byte_change l .numExpStart c     -- 'e'
  else pop l .number .retry 0

/-- `eat_num_exp_int_start` -/
def eat_num_exp_int_start (l : Lexer) (c : Nat) : Event × Lexer :=
  if is_digit c then do_byte_change l .numExpIntCont c
  else (do_nothing .expectedDigit, l)

/-- `eat_num_exp_start` -/
def eat_num_exp_start (l : Lexer) (c : Nat) : Event × Lexer :=
  if c = 43 ∨ c = 45 then do_byte_change l .numExpIntStart c -- '+' '-'
  else eat_num_exp_int_start l c

/-- `eat_num_exp_int_cont` -/
def eat_num_exp_int_cont (l : Lexer) (c : Nat) : Event × Lexer :=
  if is_digit c then do_byte l c
  else if is_number_end c then pop l .number .retry 0
  else pop l .number .expectedDigit 0

/-- `eat_literal`: match the next byte of a keyword; `target.getD i 0`
models the C read of the NUL-terminated string literal. -/
def eat_literal (l : Lexer) (len : Nat) (target : List Nat) (c : Nat) :
    Event × Lexer :=
  if c ≠ target.getD l.length 0 then (do_nothing .expectedLiteral, l)
  else
    let l1 := { l with length := (l.length + 1) % 2 ^ 32 }
    if l1.length = len then pop l1 .literal .success c
    else do_byte l1 c

/-- `eat_false` -/
def eat_false (l : Lexer) (c : Nat) : Event × Lexer :=
  eat_literal l 5 [102, 97, 108, 115, 101] c

/-- `eat_null` -/
def eat_null (l : Lexer) (c : Nat) : Event × Lexer :=
  eat_literal l 4 [110, 117, 108, 108] c

/-- `eat_true` -/
def eat_true (l : Lexer) (c : Nat) : Event × Lexer :=
  eat_literal l 4 [116, 114, 117, 101] c

/-- The four states accepted at EOF by the `last_digit_mask` bit mask
`0x0012C000` (bits 14, 15, 17, 20). -/
def acceptingEof : State → Bool
  | .numIntCont | .numIntEnd | .numFracCont | .numExpIntCont => true
  | _ => false

/-- `sajs_process_byte`: the per-byte transition function.  Negative input
is EOF; otherwise whitespace in a structural state is skipped and the
handler for the top state runs on the byte cast `(uint8_t)c`. -/
def sajs_process_byte (l : Lexer) (c : Int) : Event × Lexer :=
  if c < 0 then
    if l.stack.length = 2 ∧ acceptingEof (topState l) = true then
      pop l .number .success 0
    else
      (do_nothing (if topState l = .start then .failure else .noData), l)
  else if is_space c.toNat = true ∧ stateIdx (topState l) ≤ 8 then
    (do_nothing .success, l)
  else
    match topState l with
    | .start => eat_start l (c.toNat % 256)
    | .elemFirst => eat_elem_first l (c.toNat % 256)
    | .elemSep => eat_elem_sep l (c.toNat % 256)
    | .elemNext => eat_elem_next l (c.toNat % 256)
    | .memNameFirst => eat_mem_name_first l (c.toNat % 256)
    | .memNameSep => eat_mem_name_sep l (c.toNat % 256)
    | .memValueStart => eat_mem_value_start l (c.toNat % 256)
    | .memSep => eat_mem_sep l (c.toNat % 256)
    | .memNext => eat_mem_next l (c.toNat % 256)
    | .string => eat_string l (c.toNat % 256)
    | .stringEsc => eat_string_esc l (c.toNat % 256)
    | .stringEscHex => eat_string_esc_hex l (c.toNat % 256)
    | .stringEscLo => eat_string_esc_lo l (c.toNat % 256)
    | .numIntStart => eat_num_int_start l (c.toNat % 256)
    | .numIntCont => eat_num_int_cont l (c.toNat % 256)
    | .numIntEnd => eat_num_int_end l (c.toNat % 256)
    | .numFracStart => eat_num_frac_start l (c.toNat % 256)
    | .numFracCont => eat_num_frac_cont l (c.toNat % 256)
    | .numExpStart => eat_num_exp_start l (c.toNat % 256)
    | .numExpIntStart => eat_num_exp_int_start l (c.toNat % 256)
    | .numExpIntCont => eat_num_exp_int_cont l (c.toNat % 256)
    | .falseLit => eat_false l (c.toNat % 256)
    | .nullLit => eat_null l (c.toNat % 256)
    | .trueLit => eat_true l (c.toNat % 256)

/-- The fusion of a retried step's two outcomes in `sajs_read_byte`: the
status of the second step replaces the first, and two end events fuse
into a double end carrying the second step's kind. -/
def fuse (r s : Event × Lexer) : Event × Lexer :=
  if r.1.type = .endE ∧ s.1.type = .endE then
    ({ r.1 with status := s.1.status, kind := s.1.kind, type := .doubleEnd },
     s.2)
  else ({ r.1 with status := s.1.status }, s.2)

/-- `sajs_read_byte`: run the per-byte step; on `retry` run it again with
the same byte and fuse the two outcomes. -/
def sajs_read_byte (l : Lexer) (c : Int) : Event × Lexer :=
  if (sajs_process_byte l c).1.status = .retry then
    fuse (sajs_process_byte l c)
      (sajs_process_byte (sajs_process_byte l c).2 c)
  else sajs_process_byte l c

/-- `sajs_string`: a view of the byte buffer with length `num_bytes`. -/
def sajs_string (l : Lexer) : StringView := ⟨l.bytes, l.numBytes⟩

/-- Feed a list of input symbols through the lexer, collecting the status
of every read. -/
def run_statuses : Lexer → List Int → List Status × Lexer
  | l, [] => ([], l)
  | l, c :: cs =>
    let r := sajs_read_byte l c
    let rest := run_statuses r.2 cs
    (r.1.status :: rest.1, rest.2)

/-- The lexer state after feeding a list of input symbols. -/
def feed (l : Lexer) (cs : List Int) : Lexer := (run_statuses l cs).2

/-! ## The writer (writer.c) -/

/-- The structural mark attached to each output fragment, telling the
caller what delimiter or whitespace should precede it (the C enum is
named after the word for a leading delimiter; its constructors are
`SAJS_..._NONE, _OBJECT_START, _ARRAY_START, _OBJECT_END, _ARRAY_END,
_MEMBER_COLON, _MEMBER_COMMA, _ARRAY_COMMA`). -/
inductive TextMark where
  | noMark
  | objectStart
  | arrayStart
  | objectEnd
  | arrayEnd
  | memberColon
  | memberComma
  | arrayComma
  deriving DecidableEq, Repr

/-- Writer state (`struct SajsWriterImpl`): container depth, kind and
flags of the current value, and the last written bytes. -/
structure Writer where
  depth : Nat
  topKind : ValueKind
  topFlags : Nat
  topBytes : List Nat
  deriving DecidableEq, Repr

/-- The text output produced by writing one result (`SajsTextOutput`):
status, indent level, fragment length and bytes, and the leading mark. -/
structure TextOutput where
  status : Status
  indent : Nat
  length : Nat
  bytes : List Nat
  mark : TextMark
  deriving DecidableEq, Repr

/-- `make_output` -/
def make_output (st : Status) (mark : TextMark) (depth : Nat)
    (length : Nat) (bytes : List Nat) : TextOutput :=
  ⟨st, depth, length, bytes, mark⟩

/-- `emit_nothing` -/
def emit_nothing : TextOutput := make_output .success .noMark 0 0 []

/-- `emit_byte` -/
def emit_byte (w : Writer) (b : Nat) : TextOutput × Writer :=
  (make_output .success .noMark 0 1 [b], { w with topBytes := [b] })

/-- `emit_sep` -/
def emit_sep (w : Writer) (mark : TextMark) (depth : Nat) (b : Nat) :
    TextOutput × Writer :=
  (make_output .success mark depth 1 [b], { w with topBytes := [b] })

/-- `emit_pair` -/
def emit_pair (w : Writer) (a b : Nat) : TextOutput × Writer :=
  (make_output .success .noMark 0 2 [a, b], { w with topBytes := [a, b] })

/-- `on_start`: emit the opening byte of a value; for containers the
indent level passed out is the depth before the post-increment
(`writer->depth++`). -/
def on_start (w : Writer) (kind : ValueKind) (flags : Nat) (head : Nat) :
    TextOutput × Writer :=
  let w1 := { w with topKind := kind, topFlags := flags }
  let isFirst := flags &&& isFirstFlag ≠ 0
  let mark :=
    if flags &&& isMemberValueFlag ≠ 0 then TextMark.memberColon
    else if flags &&& isMemberNameFlag ≠ 0 then
      (if isFirst then TextMark.objectStart else TextMark.memberComma)
    else if flags &&& isElementFlag ≠ 0 then
      (if isFirst then TextMark.arrayStart else TextMark.arrayComma)
    else TextMark.noMark
  match kind with
  | .object =>
    let r := emit_sep w1 mark w1.depth 123
    (r.1, { r.2 with depth := (r.2.depth + 1) % 2 ^ 32 })
  | .array =>
    let r := emit_sep w1 mark w1.depth 91
    (r.1, { r.2 with depth := (r.2.depth + 1) % 2 ^ 32 })
  | .string => emit_sep w1 mark w1.depth 34
  | _ => emit_sep w1 mark w1.depth head

/-- `on_byte`: emit a character of a value, escaping inside strings.  The
generic control escape keeps the source's `'0' + nibble` computation. -/
def on_byte (w : Writer) (b : Nat) : TextOutput × Writer :=
  if w.topKind ≠ .string then emit_byte w b
  else if b = 34 ∨ b = 92 then emit_pair w 92 b
  else if b = 8 then emit_pair w 92 98
  else if b = 12 then emit_pair w 92 102
  else if b = 10 then emit_pair w 92 110
  else if b = 13 then emit_pair w 92 114
  else if b = 9 then emit_pair w 92 116
  else if 32 ≤ b then emit_byte w b
  else
    let hexed := [92, 117, 48, 48, 48 + ((b &&& 0xF0) >>> 4), 48 + (b &&& 0x0F)]
    (make_output .success .noMark w.depth 6 hexed, { w with topBytes := hexed })

/-- `on_end`: emit the closing byte of a value; for containers the indent
level passed out is the depth after the pre-decrement (`--writer->depth`,
in `unsigned` arithmetic). -/
def on_end (w : Writer) (kind : ValueKind) (tail : Nat) : TextOutput × Writer :=
  let w1 := { w with topFlags := 0 }
  match kind with
  | .object =>
    let d := (w1.depth + (2 ^ 32 - 1)) % 2 ^ 32
    emit_sep { w1 with depth := d } .objectEnd d 125
  | .array =>
    let d := (w1.depth + (2 ^ 32 - 1)) % 2 ^ 32
    emit_sep { w1 with depth := d } .arrayEnd d 93
  | .string => emit_byte w1 34
  | _ => if tail ≠ 0 then emit_byte w1 tail else (emit_nothing, w1)

/-- `sizeof(SajsWriterImpl)` on a typical ABI (the exact value is
immaterial to the claims; only "successful init" matters). -/
def writerHeaderSize : Nat := 20

/-- `sajs_writer_init`: fails when the memory is too small; otherwise
installs a writer over the caller's memory.  Note that the C function
writes `top_kind`, `top_flags` and `top_bytes[0]` but never writes
`depth`, so `depth` keeps whatever the caller's memory held; the `mem`
parameter models that pre-existing memory content. -/
def sajs_writer_init (memSize : Nat) (mem : Writer) : Option Writer :=
  if memSize < writerHeaderSize then none
  else some { mem with topKind := .noKind, topFlags := 0, topBytes := [0] }

/-- `sajs_write_event` (declared `sajs_write_result` in sajs.h): map one
lexed result to a text output.  `string.data[0]` reads the buffer
regardless of the view length, modelled by `headD` on the buffer. -/
def sajs_write_event (w : Writer) (e : Event) (string : StringView) :
    TextOutput × Writer :=
  if e.type = .start then
    on_start w e.kind e.flags
      (if e.flags &&& hasBytesFlag ≠ 0 then string.data.headD 0 else 0)
  else if e.type = .endE then
    on_end w e.kind
      (if e.flags &&& hasBytesFlag ≠ 0 then string.data.headD 0 else 0)
  else if e.type = .doubleEnd then
    let r := on_end w w.topKind 0
    on_end r.2 e.kind 0
  else if e.type = .bytes then
    if string.length = 1 then on_byte w (string.data.headD 0)
    else (make_output .success .noMark 0 string.length string.data, w)
  else (emit_nothing, w)

/-! ## The pipe tool driver loop (tools/sajs-pipe.c) -/

/-- `update_depth`: track the nesting depth (in `unsigned` arithmetic)
and report whether this event closed the top-level value. -/
def update_depth (depth : Nat) (e : Event) : Nat × Bool :=
  if e.type = .start then ((depth + 1) % 2 ^ 32, false)
  else if e.type = .endE then
    let d := (depth + (2 ^ 32 - 1)) % 2 ^ 32
    (d, d = 0)
  else if e.type = .doubleEnd then
    let d := (depth + (2 ^ 32 - 2)) % 2 ^ 32
    (d, d = 0)
  else (depth, false)

/-- The `while (!st)` loop of `run()` in sajs-pipe.c, over a finite input
whose exhaustion yields `-1` forever (as `fgetc` does); writing to the
output stream is modelled as always succeeding, so only the lexer can
stop the loop.  Returns the final status and the number of completed
top-level values.  The fuel argument bounds the number of iterations; it
never runs out when it is at least `input.length + 2` (after the input
is exhausted, at most one EOF step can succeed). -/
def pipe_run_loop : Nat → Lexer → Nat → Nat → List Int → Status × Nat
  | 0, _, nv, _, _ => (.success, nv)
  | fuel + 1, lx, nv, depth, input =>
    let c := input.headD (-1)
    let r := sajs_read_byte lx c
    if r.1.status ≠ .success then (r.1.status, nv)
    else
      let d := update_depth depth r.1
      let nv1 := if d.2 then nv + 1 else nv
      pipe_run_loop fuel r.2 nv1 d.1 input.tail

/-- One run of the pipe tool's `run()` on the given input bytes with a
lexer of the given stack capacity. -/
def pipe_run (maxDepth : Nat) (input : List Int) : Status × Nat :=
  pipe_run_loop (input.length + 2) (sajs_lexer_init maxDepth) 0 0 input

/-- The return expression of `run()`:
`(num_values != 1) ? 65 : (st == SAJS_FAILURE) ? 0 : (int)st + 100`. -/
def pipe_exit_code (st : Status) (numValues : Nat) : Int :=
  if numValues ≠ 1 then 65
  else if st = .failure then 0
  else (statusCode st : Int) + 100

/-- The exit code of a full pipe-tool run. -/
def pipe_exit (maxDepth : Nat) (input : List Int) : Int :=
  pipe_exit_code (pipe_run maxDepth input).1 (pipe_run maxDepth input).2

/-- A status is a parse error when it is not Success, Retry, or Failure. -/
def is_parse_error (st : Status) : Bool :=
  st ≠ .success && st ≠ .retry && st ≠ .failure

/-! ## Reachability and stack-shape invariants -/

/-- States that can ever sit below the top of the stack in a run: the
bottom frame stays `start`, and every push either leaves `start` below
or rewrites the frame below the new top to `elemSep`, `memSep` or
`memNameSep`. -/
def structuralBelow : State → Bool
  | .start | .elemSep | .memSep | .memNameSep => true
  | _ => false

/-- All frames below the top are structural. -/
def below_ok (l : Lexer) : Prop :=
  ∀ s ∈ l.stack.tail, structuralBelow s = true

/-- Lexer states reachable from `sajs_lexer_init` by `sajs_read_byte`. -/
inductive Reachable (maxDepth : Nat) : Lexer → Prop where
  | init : Reachable maxDepth (sajs_lexer_init maxDepth)
  | step : ∀ l c, Reachable maxDepth l →
      Reachable maxDepth (sajs_read_byte l c).2

/-- What a single internal step guarantees, relative to the lexer it ran
on: a Retry status is always an End(Number) pop of a non-bottom frame; a
diagnostic status comes with a Nothing event or with the End event of a
popped string or number; and any state newly below the top is one of the
structural reset targets. -/
def StepSpec (l : Lexer) (r : Event × Lexer) : Prop :=
  (r.1.status = .retry →
    r.1.type = .endE ∧ r.1.kind = .number ∧ 2 ≤ l.stack.length ∧
    r.2.stack = l.stack.tail) ∧
  (isExpected r.1.status = true →
    r.1.type = .nothing ∨
      (r.1.type = .endE ∧ (r.1.kind = .string ∨ r.1.kind = .number))) ∧
  r.1.type ≠ .doubleEnd ∧
  (∀ s ∈ r.2.stack.tail, structuralBelow s = true ∨ s ∈ l.stack.tail)

/-! ## Per-handler step lemmas -/

/-- A `do_nothing` outcome satisfies the step contract for any non-retry
status. -/
lemma stepSpec_nothing (l : Lexer) (st : Status) (h : st ≠ .retry) :
    StepSpec l (do_nothing st, l) := by
  unfold StepSpec do_nothing
  exact ⟨fun hx => absurd hx h, fun _ => Or.inl rfl, by simp,
    fun s hs => Or.inr hs⟩

/-- A `do_nothing` outcome paired with a lexer whose below-top frames
are unchanged satisfies the step contract for any non-retry status. -/
lemma stepSpec_nothing_keep (l l2 : Lexer) (st : Status) (h : st ≠ .retry)
    (hstk : l2.stack.tail = l.stack.tail) :
    StepSpec l (do_nothing st, l2) := by
  unfold StepSpec do_nothing
  exact ⟨fun hx => absurd hx h, fun _ => Or.inl rfl, by simp,
    fun s hs => Or.inr (hstk ▸ (hs : s ∈ l2.stack.tail))⟩

/-- A `do_byte` outcome leaves the below-top frames unchanged and is a
Success with a Bytes event. -/
lemma stepSpec_do_byte (l l2 : Lexer) (c : Nat)
    (hstk : l2.stack.tail = l.stack.tail) :
    StepSpec l (do_byte l2 c) := by
  unfold StepSpec do_byte bytes_event
  exact ⟨fun hx => absurd hx (by simp),
    fun hx => by simp [isExpected] at hx, by simp,
    fun s hs => Or.inr (hstk ▸ (hs : s ∈ l2.stack.tail))⟩

/-- A `pop` satisfies the step contract whenever a diagnostic status
implies a string or number kind and a Retry status implies the number
kind. -/
lemma stepSpec_pop (l l1 : Lexer) (k : ValueKind) (st : Status)
    (last : Nat) (hstk : l1.stack = l.stack)
    (h2 : isExpected st = true → k = .string ∨ k = .number)
    (h3 : st = .retry → k = .number) :
    StepSpec l (pop l1 k st last) := by
  unfold StepSpec pop
  refine ⟨?_, ?_, by simp, ?_⟩
  · intro hx
    simp only [] at hx ⊢
    by_cases hlen : 2 ≤ l1.stack.length
    · refine ⟨by trivial, h3 (by rwa [if_pos hlen] at hx), ?_, ?_⟩
      · rw [← hstk]
        exact hlen
      · rw [if_pos hlen, hstk]
    · rw [if_neg hlen] at hx
      exact absurd hx (by simp)
  · intro hx
    simp only [] at hx
    refine Or.inr ⟨rfl, ?_⟩
    split at hx
    · exact h2 hx
    · simp [isExpected] at hx
  · intro s hs
    simp only [] at hs
    split at hs
    · rw [hstk] at hs
      exact Or.inr (List.mem_of_mem_tail hs)
    · rw [hstk] at hs
      exact Or.inr hs

/-- `do_codepoint` without unfolding the encoder: the event is Nothing or
Bytes, the status Success or ExpectedUtf8 (the latter with a Nothing
event), and the stack is untouched. -/
lemma do_codepoint_shape (l : Lexer) (cp : Nat) :
    ((do_codepoint l cp).1.type = .nothing ∨
      (do_codepoint l cp).1.type = .bytes) ∧
    ((do_codepoint l cp).1.status = .success ∨
      (do_codepoint l cp).1.status = .expectedUtf8) ∧
    (isExpected (do_codepoint l cp).1.status = true →
      (do_codepoint l cp).1.type = .nothing) ∧
    (do_codepoint l cp).2.stack = l.stack := by
  simp only [do_codepoint, bytes_event, do_nothing]
  split_ifs <;> simp [isExpected]

/-- The step contract for committing an escaped codepoint: emit it and
return the top frame to the string state. -/
lemma stepSpec_codepoint_commit (l l1 : Lexer) (cp : Nat)
    (hstk : l1.stack = l.stack) :
    StepSpec l
      ((do_codepoint l1 cp).1,
        setTop { (do_codepoint l1 cp).2 with length := 0 } .string) := by
  obtain ⟨ht, hst, hexp, hstk2⟩ := do_codepoint_shape l1 cp
  refine ⟨?_, ?_, ?_, ?_⟩
  · intro hx
    rcases hst with h | h <;> rw [h] at hx <;> exact absurd hx (by simp)
  · intro hx
    exact Or.inl (hexp hx)
  · rcases ht with h | h <;> simp [h]
  · intro s hs
    have hmem : s ∈ l.stack.tail := by
      simpa [setTop, hstk2, hstk] using hs
    exact Or.inr hmem

lemma stepSpec_eat_elem_sep (l : Lexer) (c : Nat) :
    StepSpec l (eat_elem_sep l c) := by
  simp only [eat_elem_sep]
  split_ifs <;>
    first
      | exact stepSpec_pop l _ _ _ _ rfl (by simp [isExpected]) (by simp)
      | exact stepSpec_nothing_keep l _ _ (by simp) rfl

lemma stepSpec_eat_mem_sep (l : Lexer) (c : Nat) :
    StepSpec l (eat_mem_sep l c) := by
  simp only [eat_mem_sep]
  split_ifs <;>
    first
      | exact stepSpec_pop l _ _ _ _ rfl (by simp [isExpected]) (by simp)
      | exact stepSpec_nothing_keep l _ _ (by simp) rfl

lemma stepSpec_eat_mem_name_sep (l : Lexer) (c : Nat) :
    StepSpec l (eat_mem_name_sep l c) := by
  simp only [eat_mem_name_sep]
  split_ifs <;> exact stepSpec_nothing_keep l _ _ (by simp) rfl

lemma stepSpec_eat_string (l : Lexer) (c : Nat) :
    StepSpec l (eat_string l c) := by
  simp only [eat_string]
  split_ifs <;>
    first
      | exact stepSpec_pop l _ _ _ _ rfl (by simp [isExpected]) (by simp)
      | exact stepSpec_nothing_keep l _ _ (by simp) rfl
      | exact stepSpec_do_byte l _ _ rfl

lemma stepSpec_eat_string_esc (l : Lexer) (c : Nat) :
    StepSpec l (eat_string_esc l c) := by
  simp only [eat_string_esc]
  split_ifs <;>
    first
      | exact stepSpec_nothing_keep l _ _ (by simp) rfl
      | exact stepSpec_do_byte l _ _ rfl

lemma stepSpec_eat_string_esc_hex (l : Lexer) (c : Nat) :
    StepSpec l (eat_string_esc_hex l c) := by
  simp only [eat_string_esc_hex]
  split_ifs <;>
    first
      | exact stepSpec_nothing_keep l _ _ (by simp) rfl
      | exact stepSpec_codepoint_commit l _ _ rfl

lemma stepSpec_eat_string_esc_lo (l : Lexer) (c : Nat) :
    StepSpec l (eat_string_esc_lo l c) := by
  simp only [eat_string_esc_lo]
  split_ifs
  · exact stepSpec_nothing_keep l _ _ (by simp) rfl
  · exact stepSpec_nothing_keep l _ _ (by simp) rfl
  · exact stepSpec_nothing_keep l _ _ (by simp) rfl
  · exact stepSpec_codepoint_commit l _ _ rfl
  · exact stepSpec_nothing_keep l _ _ (by simp) rfl

lemma stepSpec_eat_num_int_start (l : Lexer) (c : Nat) :
    StepSpec l (eat_num_int_start l c) := by
  simp only [eat_num_int_start]
  split_ifs <;>
    first
      | exact stepSpec_nothing_keep l _ _ (by simp) rfl
      | exact stepSpec_do_byte l _ _ rfl

lemma stepSpec_eat_num_int_end (l : Lexer) (c : Nat) :
    StepSpec l (eat_num_int_end l c) := by
  simp only [eat_num_int_end]
  split_ifs <;>
    first
      | exact stepSpec_pop l _ _ _ _ rfl (by simp [isExpected]) (by simp)
      | exact stepSpec_nothing_keep l _ _ (by simp) rfl
      | exact stepSpec_do_byte l _ _ rfl

lemma stepSpec_eat_num_int_cont (l : Lexer) (c : Nat) :
    StepSpec l (eat_num_int_cont l c) := by
  simp only [eat_num_int_cont]
  split_ifs <;>
    first
      | exact stepSpec_do_byte l _ _ rfl
      | exact stepSpec_eat_num_int_end l _

lemma stepSpec_eat_num_frac_start (l : Lexer) (c : Nat) :
    StepSpec l (eat_num_frac_start l c) := by
  simp only [eat_num_frac_start]
  split_ifs <;>
    first
      | exact stepSpec_nothing_keep l _ _ (by simp) rfl
      | exact stepSpec_do_byte l _ _ rfl

lemma stepSpec_eat_num_frac_cont (l : Lexer) (c : Nat) :
    StepSpec l (eat_num_frac_cont l c) := by
  simp only [eat_num_frac_cont]
  split_ifs <;>
    first
      | exact stepSpec_pop l _ _ _ _ rfl (by simp [isExpected]) (by simp)
      | exact stepSpec_do_byte l _ _ rfl

lemma stepSpec_eat_num_exp_int_start (l : Lexer) (c : Nat) :
    StepSpec l (eat_num_exp_int_start l c) := by
  simp only [eat_num_exp_int_start]
  split_ifs <;>
    first
      | exact stepSpec_nothing_keep l _ _ (by simp) rfl
      | exact stepSpec_do_byte l _ _ rfl

lemma stepSpec_eat_num_exp_start (l : Lexer) (c : Nat) :
    StepSpec l (eat_num_exp_start l c) := by
  simp only [eat_num_exp_start]
  split_ifs <;>
    first
      | exact stepSpec_do_byte l _ _ rfl
      | exact stepSpec_eat_num_exp_int_start l _

lemma stepSpec_eat_num_exp_int_cont (l : Lexer) (c : Nat) :
    StepSpec l (eat_num_exp_int_cont l c) := by
  simp only [eat_num_exp_int_cont]
  split_ifs <;>
    first
      | exact stepSpec_pop l _ _ _ _ rfl (by simp [isExpected]) (by simp)
      | exact stepSpec_do_byte l _ _ rfl

lemma stepSpec_eat_literal (l : Lexer) (n : Nat) (t : List Nat) (c : Nat) :
    StepSpec l (eat_literal l n t c) := by
  simp only [eat_literal]
  split_ifs <;>
    first
      | exact stepSpec_pop l _ _ _ _ rfl (by simp [isExpected]) (by simp)
      | exact stepSpec_nothing_keep l _ _ (by simp) rfl
      | exact stepSpec_do_byte l _ _ rfl

/-- `push` either succeeds with a start event and one new frame, or
leaves the lexer unchanged with a nothing event. -/
lemma push_spec (l : Lexer) (k : ValueKind) (f : Nat) (st : State)
    (first : Nat) :
    ((push l k f st first).1.status = .success ∧
      (push l k f st first).1.type = .start ∧
      (push l k f st first).2.stack = st :: l.stack) ∨
    ((push l k f st first).1.type = .nothing ∧
      (push l k f st first).2 = l ∧
      ((push l k f st first).1.status = .overflow ∨
        (push l k f st first).1.status = .expectedValue)) := by
  unfold push do_nothing
  split_ifs <;> simp

/-- `eat_value` either succeeds with a start event and one new frame, or
leaves the lexer unchanged with a nothing event. -/
lemma eat_value_cases (l : Lexer) (f c : Nat) :
    (∃ k st first, eat_value l f c = push l k f st first) ∨
    eat_value l f c = (do_nothing .expectedValue, l) := by
  unfold eat_value
  by_cases h34 : c = 34
  · rw [if_pos h34]
    exact Or.inl ⟨_, _, _, rfl⟩
  rw [if_neg h34]
  by_cases h45 : c = 45
  · rw [if_pos h45]
    exact Or.inl ⟨_, _, _, rfl⟩
  rw [if_neg h45]
  by_cases h48 : c = 48
  · rw [if_pos h48]
    exact Or.inl ⟨_, _, _, rfl⟩
  rw [if_neg h48]
  by_cases h91 : c = 91
  · rw [if_pos h91]
    exact Or.inl ⟨_, _, _, rfl⟩
  rw [if_neg h91]
  by_cases h123 : c = 123
  · rw [if_pos h123]
    exact Or.inl ⟨_, _, _, rfl⟩
  rw [if_neg h123]
  by_cases h102 : c = 102
  · rw [if_pos h102]
    exact Or.inl ⟨_, _, _, rfl⟩
  rw [if_neg h102]
  by_cases h110 : c = 110
  · rw [if_pos h110]
    exact Or.inl ⟨_, _, _, rfl⟩
  rw [if_neg h110]
  by_cases h116 : c = 116
  · rw [if_pos h116]
    exact Or.inl ⟨_, _, _, rfl⟩
  rw [if_neg h116]
  by_cases hd : is_digit c = true
  · rw [if_pos hd]
    exact Or.inl ⟨_, _, _, rfl⟩
  rw [if_neg hd]
  exact Or.inr rfl

lemma eat_value_spec (l : Lexer) (f c : Nat) :
    ((eat_value l f c).1.status = .success ∧
      (eat_value l f c).1.type = .start ∧
      ∃ s, (eat_value l f c).2.stack = s :: l.stack) ∨
    ((eat_value l f c).1.type = .nothing ∧ (eat_value l f c).2 = l ∧
      ((eat_value l f c).1.status = .overflow ∨
        (eat_value l f c).1.status = .expectedValue)) := by
  rcases eat_value_cases l f c with ⟨k, st, first, h⟩ | h
  · rw [h]
    rcases push_spec l k f st first with ⟨h1, h2, h3⟩ | ⟨h1, h2, h3⟩
    · exact Or.inl ⟨h1, h2, _, h3⟩
    · exact Or.inr ⟨h1, h2, h3⟩
  · rw [h]
    exact Or.inr ⟨rfl, rfl, Or.inr rfl⟩

/-- Common shape of a value handler followed by a conditional rewrite of
the frame below the new top to a structural state. -/
lemma stepSpec_change_below (l : Lexer) (st : State)
    (hst : structuralBelow st = true) (r : Event × Lexer)
    (hr : (r.1.status = .success ∧ r.1.type = .start ∧
            ∃ s, r.2.stack = s :: l.stack) ∨
          (r.1.type = .nothing ∧ r.2 = l ∧
            (r.1.status = .overflow ∨ r.1.status = .expectedValue))) :
    StepSpec l (change_below_if st r) := by
  rcases hr with ⟨h1, h2, s, h3⟩ | ⟨h1, h2, h3⟩
  · unfold StepSpec change_below_if setBelow
    rw [if_pos h1]
    refine ⟨by simp [h1], by simp [h1, isExpected], by simp [h2], ?_⟩
    intro x hx
    simp only [h3] at hx
    cases hstk : l.stack with
    | nil => simp [hstk] at hx
    | cons hd tl =>
      simp only [hstk, List.tail_cons, List.mem_cons] at hx
      rcases hx with hx | hx
      · exact Or.inl (hx ▸ hst)
      · exact Or.inr (by simp [hstk, hx])
  · unfold StepSpec change_below_if
    rw [if_neg (by rcases h3 with h3 | h3 <;> simp [h3])]
    refine ⟨?_, ?_, by simp [h1], ?_⟩
    · intro hx; rcases h3 with h3 | h3 <;> simp [h3] at hx
    · intro _; exact Or.inl h1
    · intro x hx; rw [h2] at hx; exact Or.inr hx

/-- Same as `stepSpec_change_below`, for the flag-resetting variant. -/
lemma stepSpec_reset_below (l : Lexer) (st : State) (f : Nat)
    (hst : structuralBelow st = true) (r : Event × Lexer)
    (hr : (r.1.status = .success ∧ r.1.type = .start ∧
            ∃ s, r.2.stack = s :: l.stack) ∨
          (r.1.type = .nothing ∧ r.2 = l ∧
            (r.1.status = .overflow ∨ r.1.status = .expectedValue))) :
    StepSpec l (reset_below_if st f r) := by
  rcases hr with ⟨h1, h2, s, h3⟩ | ⟨h1, h2, h3⟩
  · unfold StepSpec reset_below_if setBelow
    rw [if_pos h1]
    refine ⟨by simp [h1], by simp [h1, isExpected], by simp [h2], ?_⟩
    intro x hx
    simp only [h3] at hx
    cases hstk : l.stack with
    | nil => simp [hstk] at hx
    | cons hd tl =>
      simp only [hstk, List.tail_cons, List.mem_cons] at hx
      rcases hx with hx | hx
      · exact Or.inl (hx ▸ hst)
      · exact Or.inr (by simp [hstk, hx])
  · unfold StepSpec reset_below_if
    rw [if_neg (by rcases h3 with h3 | h3 <;> simp [h3])]
    refine ⟨?_, ?_, by simp [h1], ?_⟩
    · intro hx; rcases h3 with h3 | h3 <;> simp [h3] at hx
    · intro _; exact Or.inl h1
    · intro x hx; rw [h2] at hx; exact Or.inr hx

lemma stepSpec_eat_start (l : Lexer) (c : Nat) (h : topState l = .start) :
    StepSpec l (eat_start l c) := by
  unfold eat_start
  rcases eat_value_spec l 0 c with ⟨h1, h2, s, h3⟩ | ⟨h1, h2, h3⟩
  · refine ⟨by simp [h1], by simp [h1, isExpected], by simp [h2], ?_⟩
    intro x hx
    simp only [h3, List.tail_cons] at hx
    cases hstk : l.stack with
    | nil => simp [hstk] at hx
    | cons hd tl =>
      have hhd : hd = State.start := by
        simpa [topState, hstk] using h
      rw [hstk] at hx
      rcases List.mem_cons.mp hx with hx | hx
      · exact Or.inl (by simp [hx, hhd, structuralBelow])
      · exact Or.inr (by simp [hstk, hx])
  · refine ⟨?_, ?_, by simp [h1], ?_⟩
    · intro hx; rcases h3 with h3 | h3 <;> simp [h3] at hx
    · intro _; exact Or.inl h1
    · intro x hx; rw [h2] at hx; exact Or.inr hx

lemma stepSpec_eat_elem_first (l : Lexer) (c : Nat) :
    StepSpec l (eat_elem_first l c) := by
  unfold eat_elem_first
  split_ifs with h
  · exact stepSpec_pop l _ _ _ _ rfl (by simp [isExpected]) (by simp)
  · exact stepSpec_reset_below l .elemSep isElementFlag rfl _
      (eat_value_spec l _ c)

lemma stepSpec_eat_elem_next (l : Lexer) (c : Nat) :
    StepSpec l (eat_elem_next l c) := by
  unfold eat_elem_next
  exact stepSpec_change_below l .elemSep rfl _ (eat_value_spec l _ c)

lemma stepSpec_eat_mem_name_first (l : Lexer) (c : Nat) :
    StepSpec l (eat_mem_name_first l c) := by
  unfold eat_mem_name_first
  split_ifs with h1 h2
  · exact stepSpec_pop l _ _ _ _ rfl (by simp [isExpected]) (by simp)
  · exact stepSpec_nothing l .expectedQuote (by simp)
  · refine stepSpec_change_below l .memNameSep rfl _ ?_
    rcases push_spec l .string (isFirstFlag ||| isMemberNameFlag) .string 0
      with ⟨g1, g2, g3⟩ | ⟨g1, g2, g3⟩
    · exact Or.inl ⟨g1, g2, _, g3⟩
    · exact Or.inr ⟨g1, g2, g3⟩

lemma stepSpec_eat_mem_value_start (l : Lexer) (c : Nat) :
    StepSpec l (eat_mem_value_start l c) := by
  unfold eat_mem_value_start
  exact stepSpec_change_below l .memSep rfl _ (eat_value_spec l _ c)

lemma stepSpec_eat_mem_next (l : Lexer) (c : Nat) :
    StepSpec l (eat_mem_next l c) := by
  unfold eat_mem_next
  split_ifs with h
  · refine stepSpec_change_below l .memNameSep rfl _ ?_
    rcases push_spec l .string isMemberNameFlag .string 0
      with ⟨g1, g2, g3⟩ | ⟨g1, g2, g3⟩
    · exact Or.inl ⟨g1, g2, _, g3⟩
    · exact Or.inr ⟨g1, g2, g3⟩
  · exact stepSpec_nothing l .expectedQuote (by simp)

/-- The per-byte transition function satisfies the step contract in every
lexer state, for every input. -/
lemma stepSpec_process (l : Lexer) (c : Int) :
    StepSpec l (sajs_process_byte l c) := by
  unfold sajs_process_byte
  split_ifs with hc hEof hsp
  · exact stepSpec_pop l _ _ _ _ rfl (by simp [isExpected]) (by simp)
  · exact stepSpec_nothing l .failure (by simp)
  · exact stepSpec_nothing l .noData (by simp)
  · exact stepSpec_nothing l .success (by simp)
  · cases h : topState l
    · exact stepSpec_eat_start l _ h
    · exact stepSpec_eat_elem_first l _
    · exact stepSpec_eat_elem_sep l _
    · exact stepSpec_eat_elem_next l _
    · exact stepSpec_eat_mem_name_first l _
    · exact stepSpec_eat_mem_name_sep l _
    · exact stepSpec_eat_mem_value_start l _
    · exact stepSpec_eat_mem_sep l _
    · exact stepSpec_eat_mem_next l _
    · exact stepSpec_eat_string l _
    · exact stepSpec_eat_string_esc l _
    · exact stepSpec_eat_string_esc_hex l _
    · exact stepSpec_eat_string_esc_lo l _
    · exact stepSpec_eat_num_int_start l _
    · exact stepSpec_eat_num_int_cont l _
    · exact stepSpec_eat_num_int_end l _
    · exact stepSpec_eat_num_frac_start l _
    · exact stepSpec_eat_num_frac_cont l _
    · exact stepSpec_eat_num_exp_start l _
    · exact stepSpec_eat_num_exp_int_start l _
    · exact stepSpec_eat_num_exp_int_cont l _
    · exact stepSpec_eat_literal l _ _ _
    · exact stepSpec_eat_literal l _ _ _
    · exact stepSpec_eat_literal l _ _ _

/-! ## Invariants of reachable lexer states -/

lemma process_below_ok (l : Lexer) (c : Int) (h : below_ok l) :
    below_ok (sajs_process_byte l c).2 := by
  intro s hs
  rcases (stepSpec_process l c).2.2.2 s hs with h1 | h1
  · exact h1
  · exact h s h1

lemma read_below_ok (l : Lexer) (c : Int) (h : below_ok l) :
    below_ok (sajs_read_byte l c).2 := by
  unfold sajs_read_byte fuse
  have h1 := process_below_ok l c h
  split_ifs <;>
    first
      | exact process_below_ok (sajs_process_byte l c).2 c h1
      | exact h1

lemma reachable_below_ok {md : Nat} {l : Lexer} (h : Reachable md l) :
    below_ok l := by
  induction h with
  | init => intro s hs; simp [sajs_lexer_init] at hs
  | step l c _ ih => exact read_below_ok l c ih

/-- After popping a frame off a stack whose below-top frames are all
structural, the new top frame is structural. -/
lemma below_structural_top (l l1 : Lexer) (hlen : 2 ≤ l.stack.length)
    (h : below_ok l) (hst : l1.stack = l.stack.tail) :
    structuralBelow (topState l1) = true := by
  cases hstk : l.stack with
  | nil => rw [hstk] at hlen; simp at hlen
  | cons hd tl =>
    cases htl : tl with
    | nil => rw [hstk, htl] at hlen; simp at hlen
    | cons x rest =>
      have hx : topState l1 = x := by
        simp [topState, hst, hstk, htl]
      rw [hx]
      exact h x (by simp [hstk, htl])

/-- In a state whose top frame is structural, a step never yields Retry,
and an End event can only be the pop of an array or object, with a
success or underflow status. -/
lemma struct_step (l : Lexer) (c : Int)
    (h : structuralBelow (topState l) = true) :
    (sajs_process_byte l c).1.status ≠ .retry ∧
    ((sajs_process_byte l c).1.type = .endE →
      ((sajs_process_byte l c).1.kind = .array ∨
        (sajs_process_byte l c).1.kind = .object) ∧
      ((sajs_process_byte l c).1.status = .success ∨
        (sajs_process_byte l c).1.status = .underflow)) := by
  unfold sajs_process_byte
  split_ifs with hc hEof hsp
  · exfalso
    cases hts : topState l <;> rw [hts] at h hEof <;>
      simp [structuralBelow, acceptingEof] at h hEof
  · constructor
    · simp [do_nothing]
    · intro hx; simp [do_nothing] at hx
  · constructor
    · simp [do_nothing]
    · intro hx; simp [do_nothing] at hx
  · constructor
    · simp [do_nothing]
    · intro hx; simp [do_nothing] at hx
  · cases hts : topState l <;> rw [hts] at h <;>
      simp [structuralBelow] at h
    · dsimp only
      unfold eat_start
      rcases eat_value_spec l 0 (c.toNat % 256) with ⟨h1, h2, _⟩ | ⟨h1, _, h3⟩
      · exact ⟨by simp [h1], fun he => absurd he (by simp [h2])⟩
      · refine ⟨?_, fun he => absurd he (by simp [h1])⟩
        rcases h3 with h3 | h3 <;> simp [h3]
    · dsimp only
      unfold eat_elem_sep
      split_ifs
      · constructor
        · unfold pop
          dsimp only
          split_ifs <;> simp
        · intro _
          refine ⟨Or.inl rfl, ?_⟩
          unfold pop
          dsimp only
          split_ifs <;> simp
      · exact ⟨by simp [do_reset, do_nothing],
          fun hx => absurd hx (by simp [do_reset, do_nothing])⟩
      · exact ⟨by simp [do_nothing],
          fun hx => absurd hx (by simp [do_nothing])⟩
    · dsimp only
      unfold eat_mem_name_sep
      split_ifs
      · exact ⟨by simp [do_reset, do_nothing],
          fun hx => absurd hx (by simp [do_reset, do_nothing])⟩
      · exact ⟨by simp [do_nothing],
          fun hx => absurd hx (by simp [do_nothing])⟩
    · dsimp only
      unfold eat_mem_sep
      split_ifs
      · exact ⟨by simp [do_reset, do_nothing],
          fun hx => absurd hx (by simp [do_reset, do_nothing])⟩
      · constructor
        · unfold pop
          dsimp only
          split_ifs <;> simp
        · intro _
          refine ⟨Or.inr rfl, ?_⟩
          unfold pop
          dsimp only
          split_ifs <;> simp
      · exact ⟨by simp [do_nothing],
          fun hx => absurd hx (by simp [do_nothing])⟩

/-! ## Claim theorems -/

/-- C3: for every lexer state reachable after Init and every input (byte
or EOF), the status returned by `sajs_read_byte` is never Retry: when the
internal step yields Retry, the re-invocation on the popped-to parent
state yields a non-Retry status, which replaces it in the result. -/
theorem c3_read_byte_never_observes_retry (md : Nat) (l : Lexer) (c : Int)
    (h : Reachable md l) : (sajs_read_byte l c).1.status ≠ .retry := by
  unfold sajs_read_byte
  split_ifs with hret
  · obtain ⟨_, _, hlen, hstk⟩ := (stepSpec_process l c).1 hret
    have hstruct :=
      below_structural_top l _ hlen (reachable_below_ok h) hstk
    have hnr := (struct_step (sajs_process_byte l c).2 c hstruct).1
    unfold fuse
    split_ifs <;> simpa using hnr
  · exact hret

/-- Witness for C3 at the freshly initialized lexer and input byte 't'. -/
theorem c3_read_byte_never_observes_retry_witness :
    (sajs_read_byte (sajs_lexer_init 8) 116).1.status ≠ .retry :=
  c3_read_byte_never_observes_retry 8 (sajs_lexer_init 8) 116 Reachable.init

/-- C2: from a reachable state, `sajs_read_byte` returns a DoubleEnd
event exactly when the internal step pops with status Retry (such a step
is always an End(Number) pop) and the re-invocation on the same byte also
returns an End event — which, the parent being structural, is the pop of
the enclosing array or object; the fused result then carries the outer
container's kind and the status of the second step. -/
theorem c2_double_end_fusion (md : Nat) (l : Lexer) (c : Int)
    (h : Reachable md l) :
    ((sajs_read_byte l c).1.type = .doubleEnd ↔
      ((sajs_process_byte l c).1.status = .retry ∧
        (sajs_process_byte (sajs_process_byte l c).2 c).1.type = .endE)) ∧
    ((sajs_read_byte l c).1.type = .doubleEnd →
      (sajs_process_byte l c).1.type = .endE ∧
      (sajs_process_byte l c).1.kind = .number ∧
      ((sajs_process_byte (sajs_process_byte l c).2 c).1.kind = .array ∨
        (sajs_process_byte (sajs_process_byte l c).2 c).1.kind = .object) ∧
      (sajs_read_byte l c).1.kind =
        (sajs_process_byte (sajs_process_byte l c).2 c).1.kind ∧
      (sajs_read_byte l c).1.status =
        (sajs_process_byte (sajs_process_byte l c).2 c).1.status) := by
  unfold sajs_read_byte
  by_cases hret : (sajs_process_byte l c).1.status = .retry
  · rw [if_pos hret]
    obtain ⟨htype, hkind, hlen, hstk⟩ := (stepSpec_process l c).1 hret
    have hstruct :=
      below_structural_top l _ hlen (reachable_below_ok h) hstk
    have hss := struct_step (sajs_process_byte l c).2 c hstruct
    unfold fuse
    by_cases hend :
        (sajs_process_byte (sajs_process_byte l c).2 c).1.type = .endE
    · rw [if_pos ⟨htype, hend⟩]
      constructor
      · simp [hret, hend]
      · intro _
        exact ⟨htype, hkind, (hss.2 hend).1, by simp, by simp⟩
    · rw [if_neg fun hx => hend hx.2]
      constructor
      · constructor
        · intro hx; simp [htype] at hx
        · intro hx; exact absurd hx.2 hend
      · intro hx; simp [htype] at hx
  · rw [if_neg hret]
    have hnd := (stepSpec_process l c).2.2.1
    constructor
    · constructor
      · intro hx; exact absurd hx hnd
      · intro hx; exact absurd hx.1 hret
    · intro hx; exact absurd hx hnd

/-- Witness for C2: in `[1`, the byte `]` ends the number 1 with an
internal Retry and then pops the array, producing a fused DoubleEnd. -/
theorem c2_double_end_fusion_witness :
    (sajs_read_byte (feed (sajs_lexer_init 8) [91, 49]) 93).1.type =
      EventType.doubleEnd :=
  ((c2_double_end_fusion 8 (feed (sajs_lexer_init 8) [91, 49]) 93
    (Reachable.step _ 49 (Reachable.step _ 91 Reachable.init))).1).mpr
    (by decide)

/-- On EOF the per-byte step pops a number at depth one, or does nothing
with NoData / Failure. -/
lemma process_eof (l : Lexer) :
    sajs_process_byte l (-1) =
      (if l.stack.length = 2 ∧ acceptingEof (topState l) = true then
        pop l .number .success 0
      else
        (do_nothing (if topState l = .start then .failure else .noData),
         l)) := by
  unfold sajs_process_byte
  rw [if_pos (by norm_num : (-1 : Int) < 0)]

/-- C6: `sajs_read_byte` at EOF is a trichotomy: with one of the four
accepting number states on top of a stack of exactly one pushed frame
(`top == 1`), the number is popped with End(Number)/Success; otherwise
the event is Nothing, with status Failure when the top state is Start
and NoData when it is not. -/
theorem c6_eof_trichotomy (l : Lexer) :
    (sajs_read_byte l (-1)).1 =
      (if l.stack.length = 2 ∧ acceptingEof (topState l) = true then
        { status := .success, type := .endE, kind := .number, flags := 0 }
      else if topState l = .start then
        { status := .failure, type := .nothing, kind := .noKind, flags := 0 }
      else
        { status := .noData, type := .nothing, kind := .noKind,
          flags := 0 }) := by
  unfold sajs_read_byte
  rw [process_eof]
  by_cases ha : l.stack.length = 2 ∧ acceptingEof (topState l) = true
  · rw [if_pos ha, if_pos ha]
    have hpop : (pop l ValueKind.number Status.success 0).1 =
        { status := .success, type := .endE, kind := .number,
          flags := 0 } := by
      unfold pop
      have h2 : 2 ≤ l.stack.length := by rw [ha.1]
      simp [h2]
    have hnr : ¬ (pop l ValueKind.number Status.success 0).1.status =
        Status.retry := by rw [hpop]; simp
    rw [if_neg hnr]
    exact hpop
  · rw [if_neg ha, if_neg ha]
    by_cases hs : topState l = State.start
    · rw [if_pos hs, if_pos hs]
      rw [if_neg (show ¬ (do_nothing Status.failure, l).1.status =
          Status.retry by simp [do_nothing])]
      rfl
    · rw [if_neg hs, if_neg hs]
      rw [if_neg (show ¬ (do_nothing Status.noData, l).1.status =
          Status.retry by simp [do_nothing])]
      rfl

/-- C7 (amended): from a reachable state, a result whose status is in the
ExpectedX family carries either a Nothing event, or — for the two popping
rejections (a byte below 0x20 in a string, a non-digit non-delimiter in
the exponent) and for a retried number end whose re-step is rejected — an
End event of the popped string or number; never a Start or Bytes event. -/
theorem c7_rejection_event_amended (md : Nat) (l : Lexer) (c : Int)
    (h : Reachable md l)
    (hx : isExpected (sajs_read_byte l c).1.status = true) :
    (sajs_read_byte l c).1.type = .nothing ∨
      ((sajs_read_byte l c).1.type = .endE ∧
        ((sajs_read_byte l c).1.kind = .string ∨
          (sajs_read_byte l c).1.kind = .number)) := by
  unfold sajs_read_byte at hx ⊢
  split_ifs at hx ⊢ with hret
  · obtain ⟨htype, hkind, hlen, hstk⟩ := (stepSpec_process l c).1 hret
    have hstruct :=
      below_structural_top l _ hlen (reachable_below_ok h) hstk
    have hss := struct_step (sajs_process_byte l c).2 c hstruct
    unfold fuse at hx ⊢
    split_ifs at hx ⊢ with hend
    · exfalso
      rcases (hss.2 hend.2).2 with hs | hs <;>
        simp [hs, isExpected] at hx
    · right
      exact ⟨by simpa using htype, Or.inr (by simpa using hkind)⟩
  · exact (stepSpec_process l c).2.1 hx

/-- Witness for C7 (amended): inside a string, the control byte 0x01 is
rejected with ExpectedPrintable and the returned event is End(String). -/
theorem c7_rejection_event_amended_witness :
    isExpected (sajs_read_byte (feed (sajs_lexer_init 8) [34]) 1).1.status =
      true ∧
    ((sajs_read_byte (feed (sajs_lexer_init 8) [34]) 1).1.type = .nothing ∨
      ((sajs_read_byte (feed (sajs_lexer_init 8) [34]) 1).1.type = .endE ∧
        ((sajs_read_byte (feed (sajs_lexer_init 8) [34]) 1).1.kind =
            .string ∨
          (sajs_read_byte (feed (sajs_lexer_init 8) [34]) 1).1.kind =
            .number))) :=
  ⟨by decide,
    c7_rejection_event_amended 8 (feed (sajs_lexer_init 8) [34]) 1
      (Reachable.step _ 34 Reachable.init) (by decide)⟩

/-- Counterexample for C7 as stated: the rejection of byte 0x01 inside a
string returns EXPECTED_PRINTABLE with an End(String) event, not an event
of kind Nothing. -/
theorem c7_rejection_nothing_counterexample :
    (sajs_read_byte (feed (sajs_lexer_init 8) [34]) 1).1.status =
      Status.expectedPrintable ∧
    (sajs_read_byte (feed (sajs_lexer_init 8) [34]) 1).1.type =
      EventType.endE ∧
    (sajs_read_byte (feed (sajs_lexer_init 8) [34]) 1).1.type ≠
      EventType.nothing := by decide

/-- Counterexample for C8 as stated: in state StringEscLo at working
length 4 (reached from `"\uD834`), the hex digit `A` is accepted with
Success and advances the working length to 5, rather than being rejected
without advancing. -/
theorem c8_hex_digit_accepted_counterexample :
    topState (feed (sajs_lexer_init 8) [34, 92, 117, 68, 56, 51, 52]) =
      State.stringEscLo ∧
    (feed (sajs_lexer_init 8) [34, 92, 117, 68, 56, 51, 52]).length = 4 ∧
    is_xdigit 65 = true ∧
    (sajs_read_byte (feed (sajs_lexer_init 8) [34, 92, 117, 68, 56, 51, 52])
        65).1.status = Status.success ∧
    (sajs_read_byte (feed (sajs_lexer_init 8) [34, 92, 117, 68, 56, 51, 52])
        65).2.length = 5 := by decide

/-- C8 (amended): in state StringEscLo with working length 4, a
backslash is accepted and advances the length to 5; a hex digit is also
accepted, advancing the length to 5 and folding the nibble into the
accumulator; only a byte that is neither is rejected (ExpectedHex)
without advancing. -/
theorem c8_esc_lo_after_high_surrogate_amended (l : Lexer) (c : Nat)
    (h1 : topState l = .stringEscLo) (h2 : l.length = 4) (h3 : c < 256) :
    (c = 92 →
      (sajs_read_byte l (c : Int)).1 = do_nothing .success ∧
      (sajs_read_byte l (c : Int)).2 = { l with length := 5 }) ∧
    (c ≠ 92 → is_xdigit c = true →
      (sajs_read_byte l (c : Int)).1 = do_nothing .success ∧
      (sajs_read_byte l (c : Int)).2 =
        { l with value := (l.value * 16 % 2 ^ 32) ||| hex_nibble c,
                 length := 5 }) ∧
    (c ≠ 92 → is_xdigit c = false →
      (sajs_read_byte l (c : Int)).1 = do_nothing .expectedHex ∧
      (sajs_read_byte l (c : Int)).2 = l) := by
  have hc0 : ¬((c : Int) < 0) := Int.not_lt.mpr (Int.natCast_nonneg c)
  have hcast : ((c : Int)).toNat % 256 = c := by
    rw [Int.toNat_natCast]
    exact Nat.mod_eq_of_lt h3
  have hsp : sajs_process_byte l (c : Int) = eat_string_esc_lo l c := by
    unfold sajs_process_byte
    rw [if_neg hc0, if_neg (by rw [h1]; simp [stateIdx]), hcast, h1]
  refine ⟨?_, ?_, ?_⟩
  · intro hc
    subst hc
    have hpe : eat_string_esc_lo l 92 =
        (do_nothing .success, { l with length := 5 }) := by
      unfold eat_string_esc_lo
      rw [if_pos (Or.inl ⟨h2, rfl⟩), h2]
      norm_num
    unfold sajs_read_byte
    rw [hsp, hpe, if_neg (by simp [do_nothing])]
    exact ⟨rfl, rfl⟩
  · intro hc hxd
    have hcond : ¬((l.length = 4 ∧ c = 92) ∨ (l.length = 5 ∧ c = 117)) := by
      rw [h2]
      rintro (⟨_, hq⟩ | ⟨hq, _⟩)
      · exact hc hq
      · exact absurd hq (by norm_num)
    have hpe : eat_string_esc_lo l c =
        (do_nothing .success,
         { l with value := (l.value * 16 % 2 ^ 32) ||| hex_nibble c,
                  length := 5 }) := by
      unfold eat_string_esc_lo
      rw [if_neg hcond, if_neg (by simp [hxd]), h2]
      norm_num
    unfold sajs_read_byte
    rw [hsp, hpe, if_neg (by simp [do_nothing])]
    exact ⟨rfl, rfl⟩
  · intro hc hxd
    have hcond : ¬((l.length = 4 ∧ c = 92) ∨ (l.length = 5 ∧ c = 117)) := by
      rw [h2]
      rintro (⟨_, hq⟩ | ⟨hq, _⟩)
      · exact hc hq
      · exact absurd hq (by norm_num)
    have hpe : eat_string_esc_lo l c = (do_nothing .expectedHex, l) := by
      unfold eat_string_esc_lo
      rw [if_neg hcond, if_pos (by simp [hxd])]
    unfold sajs_read_byte
    rw [hsp, hpe, if_neg (by simp [do_nothing])]
    exact ⟨rfl, rfl⟩

/-- Witness for C8 (amended) at the state reached from `"\uD834` with
input byte backslash. -/
theorem c8_esc_lo_after_high_surrogate_amended_witness :
    (sajs_read_byte (feed (sajs_lexer_init 8) [34, 92, 117, 68, 56, 51, 52])
        ((92 : Nat) : Int)).1 = do_nothing .success :=
  ((c8_esc_lo_after_high_surrogate_amended
      (feed (sajs_lexer_init 8) [34, 92, 117, 68, 56, 51, 52]) 92
      (by decide) (by decide) (by decide)).1 rfl).1

/-- Counterexample for C9 as stated: the first `[` (resp. `{`) of a
document produces Start(Array) (resp. Start(Object)) with empty flags:
the IsFirst bit is not set. -/
theorem c9_top_level_no_is_first_counterexample :
    (sajs_read_byte (sajs_lexer_init 8) 91).1 =
      { status := .success, type := .start, kind := .array, flags := 0 } ∧
    (sajs_read_byte (sajs_lexer_init 8) 123).1 =
      { status := .success, type := .start, kind := .object, flags := 0 } ∧
    (0 : Nat) &&& isFirstFlag = 0 := by decide

/-- C9 (amended): when `[` (resp. `{`) is read as the first value of a
document, the returned event is Start(Array) (resp. Start(Object)) with
no flags set: the top-level value carries neither IsFirst nor any other
flag. -/
theorem c9_top_level_container_amended (md : Nat) (h : 2 ≤ md) :
    (sajs_read_byte (sajs_lexer_init md) 91).1 =
      { status := .success, type := .start, kind := .array, flags := 0 } ∧
    (sajs_read_byte (sajs_lexer_init md) 123).1 =
      { status := .success, type := .start, kind := .object, flags := 0 } := by
  have hov : ¬ md ≤ 1 := by omega
  constructor <;>
    · unfold sajs_read_byte sajs_process_byte eat_start eat_value push
        do_nothing
      norm_num [sajs_lexer_init, topState, stateIdx, is_space, hov,
        show Int.toNat 91 = 91 from rfl, show Int.toNat 123 = 123 from rfl,
        isFirstFlag, hasBytesFlag]
      simp

/-- Witness for C9 (amended) at stack capacity 8. -/
theorem c9_top_level_container_amended_witness :
    (sajs_read_byte (sajs_lexer_init 8) 91).1 =
      { status := .success, type := .start, kind := .array, flags := 0 } ∧
    (sajs_read_byte (sajs_lexer_init 8) 123).1 =
      { status := .success, type := .start, kind := .object, flags := 0 } :=
  c9_top_level_container_amended 8 (by norm_num)

/-- C1 (code bug): the lexer accepts `1.5e3` in full, but on `1.5E3` the
uppercase `E` after fraction digits (state NumFracCont) is not treated
as an exponent: the number is popped with an internal Retry and the
re-step rejects `E` with ExpectedValue, so a number conforming to the
JSON grammar `-? (0 | [1-9][0-9]*) (. [0-9]+)? ([eE] [+-]? [0-9]+)?` is
not consumed without error. -/
theorem c1_uppercase_exponent_after_fraction_rejected :
    (run_statuses (sajs_lexer_init 8) [49, 46, 53]).1 =
      [Status.success, Status.success, Status.success] ∧
    topState (feed (sajs_lexer_init 8) [49, 46, 53]) = State.numFracCont ∧
    (sajs_read_byte (feed (sajs_lexer_init 8) [49, 46, 53]) 69).1.status =
      Status.expectedValue ∧
    (run_statuses (sajs_lexer_init 8) [49, 46, 53, 101, 51, -1]).1 =
      [Status.success, Status.success, Status.success, Status.success,
        Status.success, Status.success] := by decide

/-- C5 (code bug): after reading `true`, the result of the final byte is
End(Literal) with the HasBytes flag set, yet the view returned by
`sajs_string` has length 0, because `pop` zeroes `num_bytes`. -/
theorem c5_literal_end_view_empty :
    (sajs_read_byte (feed (sajs_lexer_init 8) [116, 114, 117]) 101).1 =
      { status := .success, type := .endE, kind := .literal,
        flags := hasBytesFlag } ∧
    StringView.length
        (sajs_string
          (sajs_read_byte (feed (sajs_lexer_init 8) [116, 114, 117]) 101).2)
      = 0 := by decide

/-- C4 (code bug): `sajs_writer_init` succeeds but keeps whatever value
the caller's memory held in the `depth` field (here 5), so the TextOutput
for the first Start(Object) fed to the freshly initialized writer has
indent level 5, not 0. -/
theorem c4_writer_depth_uninitialized :
    sajs_writer_init 32
        { depth := 5, topKind := .object, topFlags := 3, topBytes := [7] } =
      some { depth := 5, topKind := .noKind, topFlags := 0,
             topBytes := [0] } ∧
    (sajs_write_event
        { depth := 5, topKind := .noKind, topFlags := 0, topBytes := [0] }
        { status := .success, type := .start, kind := .object, flags := 0 }
        ⟨[], 0⟩).1.indent = 5 := by decide

/-- Counterexample for C10 as stated: on input `x` the lexer reports the
parse error ExpectedValue (status code 21) before any top-level value has
completed, and the pipe tool exits with 65, not 100 + 21 = 121. -/
theorem c10_error_before_first_value_counterexample :
    pipe_run 1024 [120] = (Status.expectedValue, 0) ∧
    is_parse_error Status.expectedValue = true ∧
    pipe_exit 1024 [120] = 65 ∧
    (statusCode Status.expectedValue : Int) + 100 = 121 := by decide

/-- C10 (amended): when a pipe run ends with a parse-error status (any
status other than Success, Retry and Failure), the exit code is
100 plus the status code only when exactly one top-level value had been
completed; otherwise (zero values, as when the error precedes the first
value's completion, or several) the exit code is 65. -/
theorem c10_parse_error_exit_code_amended (md : Nat) (input : List Int)
    (h : is_parse_error (pipe_run md input).1 = true) :
    pipe_exit md input =
      (if (pipe_run md input).2 = 1 then
        (statusCode (pipe_run md input).1 : Int) + 100
      else 65) := by
  unfold is_parse_error at h
  have hf : (pipe_run md input).1 ≠ .failure := by
    intro hx
    rw [hx] at h
    simp at h
  unfold pipe_exit pipe_exit_code
  by_cases hnv : (pipe_run md input).2 = 1
  · simp [hnv, hf]
  · simp [hnv]

/-- Witness for C10 (amended) on input `x` with the default 1024-byte
stack. -/
theorem c10_parse_error_exit_code_amended_witness :
    is_parse_error (pipe_run 1024 [120]).1 = true ∧
    pipe_exit 1024 [120] =
      (if (pipe_run 1024 [120]).2 = 1 then
        (statusCode (pipe_run 1024 [120]).1 : Int) + 100
      else 65) :=
  ⟨by decide, c10_parse_error_exit_code_amended 1024 [120] (by decide)⟩

end Sajs
